import Mathlib

/-!
Verification of the turn-based simulation core of the dungeon-crawler
`rl-tutorial-rs` (sources: `src/main.rs`, `src/map.rs`, `src/message.rs`,
`src/equipment.rs`).

Shallow-embedding conventions:
* The tcod backend (rendering, input, field-of-view computation, A*)
  and the random number generator are external collaborators; they are
  embedded as parameters: the FOV map as a boolean-valued function on
  coordinates, RNG draws as explicit candidate/choice streams, and the
  interactive targeting protocols as the optional tile/actor they yield.
* The `object` module (`Object`, `Fighter`, `Ai`, `attack`,
  `take_damage`, `heal`) is declared by `main.rs` (`mod object;`) but its
  file is absent from the sources; those definitions are modelled from
  the spec and marked `Modelled from the spec:` in their doc comments.
* Rust `i32`/`u32` arithmetic is embedded as `Int`/`Nat`; none of the
  verified operations comes near the `i32` overflow boundary.
* The source compares `f32` square roots of sums of squares of integer
  coordinate differences.  On the 100 x 100 map every such comparison
  (against an integer bound, or between two candidate distances)
  coincides with the comparison of the exact squared integer distances,
  so the embedding works with squared distances throughout.
-/

/-! ## Constants (src/main.rs lines 56-72, src/map.rs lines 10-14) -/

def HEAL_AMOUNT : Int := 4
def LIGHTNING_DAMAGE : Int := 20
def LIGHTNING_RANGE : Int := 5
def CONFUSE_RANGE : Int := 8
def CONFUSE_NUM_TURNS : Int := 10
def FIREBALL_RADIUS : Int := 3
def FIREBALL_DAMAGE : Int := 12
def LEVEL_UP_BASE : Int := 200
def LEVEL_UP_FACTOR : Int := 150

/-- Player is always the first object (src/main.rs line 72). -/
def PLAYER : Nat := 0

def MAP_WIDTH : Int := 100
def MAP_HEIGHT : Int := 100
def ROOM_MAX_SIZE : Int := 10
def ROOM_MIN_SIZE : Int := 6
def MAX_ROOMS : Nat := 30

/-- MSG_HEIGHT = PANEL_HEIGHT - 1 = 6 (src/main.rs line 52). -/
def MSG_HEIGHT : Nat := 6

/-! ## Colors and the message log (src/message.rs)

The tcod color constants are opaque to the core; they are embedded as an
enumeration of the named colors the sources use. -/

inductive Color where
  | white | black | red | green | yellow | violet
  | lightViolet | lightBlue | lightCyan | lightGreen | lightYellow
  | orange | darkerGreen | desaturatedGreen | sky
  deriving Repr, DecidableEq

/-- `Messages` (src/message.rs): a bounded log of (text, color) pairs. -/
structure Messages where
  capacity : Nat
  entries : List (String × Color)
  deriving Repr, DecidableEq

/-- `Messages::message` (src/message.rs lines 13-22): when the buffer is
full the first entry is removed, then the new entry is pushed. -/
def Messages.message (m : Messages) (text : String) (c : Color) : Messages :=
  let entries := if m.entries.length = m.capacity then m.entries.drop 1 else m.entries
  { m with entries := entries ++ [(text, c)] }

/-! ## The map model (src/map.rs) -/

/-- `Tile` (src/map.rs lines 33-56). -/
structure Tile where
  blocked : Bool
  block_sight : Bool
  explored : Bool
  deriving Repr, DecidableEq

def Tile.empty : Tile := ⟨false, false, false⟩

def Tile.wall : Tile := ⟨true, true, false⟩

/-- `Transition` (src/map.rs lines 16-19); `u32` fields become `Nat`. -/
structure Transition where
  level : Nat
  value : Nat
  deriving Repr, DecidableEq

/-- `from_dungeon_level` (src/map.rs lines 23-28): scan the table in
reverse for the first entry whose threshold is at most `level`. -/
def from_dungeon_level (table : List Transition) (level : Nat) : Nat :=
  ((table.reverse.find? fun transition => decide (level ≥ transition.level)).map
    Transition.value).getD 0

/-- `Rect` (src/map.rs lines 70-76). -/
structure Rect where
  x1 : Int
  y1 : Int
  x2 : Int
  y2 : Int
  deriving Repr, DecidableEq

/-- `Rect::new` (src/map.rs lines 79-86). -/
def Rect.new (x y width height : Int) : Rect :=
  ⟨x, y, x + width, y + height⟩

/-- `Rect::center` (src/map.rs lines 88-92). -/
def Rect.center (r : Rect) : Int × Int :=
  ((r.x1 + r.x2) / 2, (r.y1 + r.y2) / 2)

/-- `Rect::intersects` (src/map.rs lines 94-97): inclusive AABB test. -/
def Rect.intersects (r other : Rect) : Bool :=
  (r.x1 ≤ other.x2) && (r.x2 ≥ other.x1) && (r.y1 ≤ other.y2) && (r.y2 ≥ other.y1)

/-! ## `make_map` (src/map.rs lines 120-191), room placement

The RNG is external: the `MAX_ROOMS` sampled candidate rectangles enter
as an explicit list.  Tile carving (`create_room`, `create_h_tunnel`,
`create_v_tunnel`) and room population (`place_objects`) mutate only the
tile grid and the monster/item list; neither affects the accepted-room
list, the player start position, or the stairs position, which is the
state the claims about `make_map` quantify over, so the embedding
carries exactly that state through the placement loop. -/

structure MapGenResult where
  rooms : List Rect
  player_start : Option (Int × Int)
  stairs_pos : Option (Int × Int)
  deriving Repr, DecidableEq

/-- One iteration of the placement loop of `make_map` (src/map.rs lines
130-182): reject the candidate if it intersects any previously accepted
room; on acceptance of the first room, set the player start to its
center; finally append the accepted room. -/
def make_map_step (acc : List Rect × Option (Int × Int)) (new_room : Rect) :
    List Rect × Option (Int × Int) :=
  let (rooms, start) := acc
  let failed := rooms.any fun other_room => new_room.intersects other_room
  if failed then
    (rooms, start)
  else if rooms.isEmpty then
    (rooms ++ [new_room], some new_room.center)
  else
    (rooms ++ [new_room], start)

/-- The room-placement portion of `make_map` (src/map.rs lines 120-191)
over the candidate rectangles drawn by the RNG; the stairs are placed at
the center of the last accepted room (`rooms[rooms.len() - 1]`, a panic
when no room was accepted, embedded as `Option`). -/
def make_map (candidates : List Rect) : MapGenResult :=
  let (rooms, start) := candidates.foldl make_map_step ([], none)
  { rooms := rooms
    player_start := start
    stairs_pos := rooms.getLast?.map Rect.center }

/-! ### C8: accepted rooms never overlap -/

/-- `Rect.intersects` is symmetric. -/
theorem Rect.intersects_symm (a b : Rect) :
    a.intersects b = b.intersects a := by
  unfold Rect.intersects
  by_cases h1 : a.x1 ≤ b.x2 <;> by_cases h2 : b.x1 ≤ a.x2 <;>
    by_cases h3 : a.y1 ≤ b.y2 <;> by_cases h4 : b.y1 ≤ a.y2 <;>
    simp [h1, h2, h3, h4, ge_iff_le]

/-- Invariant of the placement fold: the accepted list stays pairwise
non-intersecting, and the fold only ever appends. -/
theorem make_map_fold_pairwise (candidates : List Rect)
    (acc : List Rect × Option (Int × Int))
    (h : acc.1.Pairwise fun a b => a.intersects b = false) :
    (candidates.foldl make_map_step acc).1.Pairwise
      fun a b => a.intersects b = false := by
  induction candidates generalizing acc with
  | nil => exact h
  | cons c rest ih =>
    apply ih
    unfold make_map_step
    rcases acc with ⟨rooms, start⟩
    by_cases hfail : (rooms.any fun other_room => c.intersects other_room) = true
    · simpa [hfail] using h
    · have hall : ∀ r ∈ rooms, c.intersects r = false := by
        intro r hr
        cases h2 : c.intersects r with
        | false => rfl
        | true => exact absurd (List.any_eq_true.mpr ⟨r, hr, h2⟩) hfail
      have happ : (rooms ++ [c]).Pairwise fun a b => a.intersects b = false := by
        rw [List.pairwise_append]
        refine ⟨h, List.pairwise_singleton _ _, ?_⟩
        intro a ha b hb
        simp only [List.mem_singleton] at hb
        subst hb
        rw [Rect.intersects_symm]
        exact hall a ha
      by_cases hemp : rooms.isEmpty <;> simp [hfail, hemp, happ]

/-- C8: In the map produced by generation no two accepted rooms overlap:
for all pairs of distinct accepted rooms (indices i < j), the inclusive
bounding-rectangle intersection test is false in both directions,
because each candidate is rejected whenever it intersects any previously
accepted room. -/
theorem make_map_rooms_never_overlap (candidates : List Rect)
    (i j : Nat) (hij : i < j) (hj : j < (make_map candidates).rooms.length) :
    ((make_map candidates).rooms.get ⟨i, Nat.lt_trans hij hj⟩).intersects
      ((make_map candidates).rooms.get ⟨j, hj⟩) = false ∧
    ((make_map candidates).rooms.get ⟨j, hj⟩).intersects
      ((make_map candidates).rooms.get ⟨i, Nat.lt_trans hij hj⟩) = false := by
  have hpw : (make_map candidates).rooms.Pairwise fun a b => a.intersects b = false := by
    have := make_map_fold_pairwise candidates ([], none) (by simp)
    simpa [make_map] using this
  have h1 := List.pairwise_iff_get.mp hpw ⟨i, Nat.lt_trans hij hj⟩ ⟨j, hj⟩ hij
  exact ⟨h1, by rw [Rect.intersects_symm]; exact h1⟩

/-- Witness for C8: a concrete generation run with an accepted,
a rejected, and another accepted candidate. -/
theorem make_map_rooms_never_overlap_witness :
    (0 : Nat) < 1 ∧ 1 < (make_map [Rect.new 0 0 6 6, Rect.new 3 3 6 6,
      Rect.new 20 20 6 6]).rooms.length ∧
    ((make_map [Rect.new 0 0 6 6, Rect.new 3 3 6 6, Rect.new 20 20 6 6]).rooms.get
        ⟨0, by decide⟩).intersects
      ((make_map [Rect.new 0 0 6 6, Rect.new 3 3 6 6, Rect.new 20 20 6 6]).rooms.get
        ⟨1, by decide⟩) = false :=
  ⟨by decide, by decide,
    (make_map_rooms_never_overlap
      [Rect.new 0 0 6 6, Rect.new 3 3 6 6, Rect.new 20 20 6 6] 0 1
      (by decide) (by decide)).1⟩

/-! ### C9: level-scaled table lookup -/

/-- Helper for C9: `from_dungeon_level` on a table with an appended last
entry inspects that entry first. -/
theorem from_dungeon_level_append (ts : List Transition) (t : Transition)
    (level : Nat) :
    from_dungeon_level (ts ++ [t]) level =
      if t.level ≤ level then t.value else from_dungeon_level ts level := by
  unfold from_dungeon_level
  rw [List.reverse_append, List.reverse_singleton, List.singleton_append]
  by_cases h : t.level ≤ level
  · rw [List.find?_cons_of_pos _ (by simpa [ge_iff_le] using h)]
    simp [h]
  · rw [List.find?_cons_of_neg _ (by simpa [ge_iff_le] using h)]
    simp [h]

/-- C9: For every table of (level-threshold, value) pairs with strictly
ascending thresholds and every level, `from_dungeon_level` returns 0
when no threshold is at most the level, and otherwise the value of an
entry whose threshold is at most the level and is the highest such
threshold in the table. -/
theorem from_dungeon_level_resolves (table : List Transition) (level : Nat)
    (hsort : table.Pairwise fun a b => a.level < b.level) :
    ((∀ t ∈ table, ¬ t.level ≤ level) → from_dungeon_level table level = 0) ∧
    (∀ t ∈ table, t.level ≤ level →
      ∃ u ∈ table, u.level ≤ level ∧ from_dungeon_level table level = u.value ∧
        ∀ v ∈ table, v.level ≤ level → v.level ≤ u.level) := by
  induction table using List.reverseRecOn with
  | nil => simp [from_dungeon_level]
  | append_singleton ts t ih =>
    rw [List.pairwise_append] at hsort
    obtain ⟨hts, -, hlt⟩ := hsort
    have ihts := ih hts
    constructor
    · intro hnone
      have hne : ¬ t.level ≤ level := hnone t (by simp)
      rw [from_dungeon_level_append, if_neg hne]
      exact ihts.1 fun u hu => hnone u (by simp [hu])
    · intro t0 ht0 ht0le
      by_cases ht : t.level ≤ level
      · refine ⟨t, by simp, ht, ?_, ?_⟩
        · rw [from_dungeon_level_append, if_pos ht]
        · intro v hv hvle
          rcases List.mem_append.mp hv with hv | hv
          · exact Nat.le_of_lt (hlt v hv t (by simp))
          · simp only [List.mem_singleton] at hv
            subst hv; exact Nat.le_refl _
      · have ht0ts : t0 ∈ ts := by
          rcases List.mem_append.mp ht0 with h | h
          · exact h
          · simp only [List.mem_singleton] at h
            subst h; exact absurd ht0le ht
        obtain ⟨u, hu, hule, heq, hmax⟩ := ihts.2 t0 ht0ts ht0le
        refine ⟨u, by simp [hu], hule, ?_, ?_⟩
        · rw [from_dungeon_level_append, if_neg ht]; exact heq
        · intro v hv hvle
          rcases List.mem_append.mp hv with h | h
          · exact hmax v h hvle
          · simp only [List.mem_singleton] at h
            subst h; exact absurd hvle ht

/-- Witness for C9: the max-monsters table of `place_objects` at dungeon
level 0 has no applicable threshold and resolves to 0. -/
theorem from_dungeon_level_resolves_witness :
    from_dungeon_level [⟨1, 2⟩, ⟨4, 3⟩, ⟨6, 5⟩] 0 = 0 :=
  (from_dungeon_level_resolves [⟨1, 2⟩, ⟨4, 3⟩, ⟨6, 5⟩] 0
    (by decide)).1 (by decide)

/-! ### C10: the first candidate room is always accepted -/

/-- Helper for C10: once the accepted list is non-empty, the fold keeps
its head and the player start and stays non-empty. -/
theorem make_map_fold_head (cs : List Rect)
    (acc : List Rect × Option (Int × Int)) (hne : acc.1 ≠ []) :
    (cs.foldl make_map_step acc).1 ≠ [] ∧
    (cs.foldl make_map_step acc).1.head? = acc.1.head? ∧
    (cs.foldl make_map_step acc).2 = acc.2 := by
  induction cs generalizing acc with
  | nil => exact ⟨hne, rfl, rfl⟩
  | cons c rest ih =>
    rcases acc with ⟨rooms, start⟩
    simp only [List.foldl_cons]
    have hstep : make_map_step (rooms, start) c = (rooms, start) ∨
        make_map_step (rooms, start) c = (rooms ++ [c], start) := by
      unfold make_map_step
      by_cases hfail : (rooms.any fun other_room => c.intersects other_room) = true
      · left; simp [hfail]
      · right
        have : ¬ rooms.isEmpty := by simpa [List.isEmpty_iff] using hne
        simp [hfail, this]
    rcases hstep with hstep | hstep <;> rw [hstep]
    · exact ih (rooms, start) hne
    · obtain ⟨h1, h2, h3⟩ := ih (rooms ++ [c], start) (by simp)
      refine ⟨h1, ?_, h3⟩
      rw [h2]
      rcases rooms with _ | ⟨r, rs⟩
      · exact absurd rfl hne
      · simp
--
/-- C10: `make_map` always accepts at least one room: with a non-empty
candidate stream the first candidate passes the (vacuous) intersection
test, so after the placement loop the accepted-room list is non-empty,
its first room is the first candidate, the player start has been set to
the first room center, and the final indexing of the last accepted room
for stairs placement yields a position (no panic). -/
theorem make_map_accepts_first_room (c : Rect) (cs : List Rect) :
    (make_map (c :: cs)).rooms ≠ [] ∧
    (make_map (c :: cs)).rooms.head? = some c ∧
    (make_map (c :: cs)).player_start = some c.center ∧
    (make_map (c :: cs)).stairs_pos.isSome = true := by
  have hfirst : make_map_step ([], none) c = ([c], some c.center) := rfl
  have hfold := make_map_fold_head cs ([c], some c.center) (by simp)
  obtain ⟨h1, h2, h3⟩ := hfold
  unfold make_map
  simp only [List.foldl_cons, hfirst]
  refine ⟨by simpa using h1, by simpa using h2, by simpa using h3, ?_⟩
  cases hlast : (cs.foldl make_map_step ([c], some c.center)).1.getLast? with
  | none => exact absurd (List.getLast?_eq_none_iff.mp hlast) h1
  | some p => simp [hlast]

/-! ## The entity model

`main.rs` declares `mod object;` but the `object` module file is absent
from the sources; its items (`Object`, `Fighter`, `DeathCallback`, `Ai`,
`Item`, `attack`, `take_damage`, `heal`) are modelled from the spec
(sections 3 and 4.4) and from their call sites in `main.rs`/`map.rs`.
The exhaustive four-arm `match` in `GameState::use_item` fixes the
usable `Item` variants. -/

inductive DeathCallback where
  | Player
  | Monster
  deriving Repr, DecidableEq

/-- `Fighter` facet (spec 3): combat stats plus the death-handling
variant. -/
structure Fighter where
  max_hp : Int
  hp : Int
  defense : Int
  power : Int
  xp : Int
  on_death : DeathCallback
  deriving Repr, DecidableEq

/-- `Ai` variant (spec 3): `Confused` wraps the prior variant for later
restoration. -/
inductive Ai where
  | Basic : Ai
  | Confused (previous_ai : Ai) (num_turns : Int) : Ai
  deriving Repr, DecidableEq

inductive Item where
  | Heal
  | Lightning
  | Confuse
  | Fireball
  deriving Repr, DecidableEq

/-- Modelled from the spec: the `Object` record of the absent `object`
module (spec 3); glyph and color are presentation and omitted. -/
structure Object where
  x : Int
  y : Int
  name : String
  blocks : Bool
  alive : Bool
  always_visible : Bool
  level : Int
  fighter : Option Fighter
  ai : Option Ai
  item : Option Item
  deriving Repr, DecidableEq

instance : Inhabited Object :=
  ⟨{ x := 0, y := 0, name := "", blocks := false, alive := false,
     always_visible := false, level := 1, fighter := none, ai := none,
     item := none }⟩

/-- Squared distance between two objects.  `Object::distance_to`
compares `f32` square roots; all claim-relevant comparisons coincide
with comparisons of the squares (see the header note). -/
def Object.distance_sq_to (o other : Object) : Int :=
  (other.x - o.x) ^ 2 + (other.y - o.y) ^ 2

/-- Squared distance from an object to a coordinate
(`Object::distance`). -/
def Object.distance_sq (o : Object) (x y : Int) : Int :=
  (x - o.x) ^ 2 + (y - o.y) ^ 2

/-- Modelled from the spec: the on-death handling of the absent `object`
module (spec 4.4): the Monster variant converts the actor into a
non-blocking, non-AI corpse and renames it; the Player variant leaves a
corpse with distinctive marking (glyph-only, nothing further to model).
-/
def DeathCallback.callback (cb : DeathCallback) (o : Object) : Object :=
  match cb with
  | .Player => o
  | .Monster =>
      { o with blocks := false, ai := none, name := "remains of " ++ o.name }

/-- Modelled from the spec: `Object::take_damage` of the absent `object`
module (spec 4.4 and the call sites in `cast_lightning` and
`cast_fireball`): reduce hp by the damage, clamp at 0; when hp reaches
0 on a live actor, mark it not-alive, trigger its on-death handling and
report the configured xp reward to the caller.  The on-death log text is
presentation and omitted. -/
def take_damage (o : Object) (damage : Int) : Object × Option Int :=
  match o.fighter with
  | none => (o, none)
  | some f =>
    let new_hp := if damage > 0 then max 0 (f.hp - damage) else f.hp
    let o' := { o with fighter := some { f with hp := new_hp } }
    if new_hp = 0 ∧ o.alive then
      (f.on_death.callback { o' with alive := false }, some f.xp)
    else
      (o', none)

/-- Modelled from the spec: `Object::heal` of the absent `object` module
(spec 4.4): restore the amount to hp, capped at max_hp. -/
def Object.heal (o : Object) (amount : Int) : Object :=
  match o.fighter with
  | none => o
  | some f =>
      { o with fighter := some { f with hp := min (f.hp + amount) f.max_hp } }

/-- Modelled from the spec: `Object::attack` of the absent `object`
module (spec 4.4): damage = attacker power minus defender defense; if
damage ≤ 0, no effect besides a message; otherwise the defender takes
the damage and, on a kill, the configured xp reward is transferred to
the attacker when the attacker has a Fighter facet.  Message wording is
presentation. -/
def attack (attacker defender : Object) : Object × Object × List String :=
  let damage := (attacker.fighter.map Fighter.power).getD 0 -
    (defender.fighter.map Fighter.defense).getD 0
  if damage > 0 then
    let msg := attacker.name ++ " attacks " ++ defender.name ++ " for " ++
      toString damage ++ " hit points."
    let (defender', reward) := take_damage defender damage
    match reward, attacker.fighter with
    | some xp, some f =>
        ({ attacker with fighter := some { f with xp := f.xp + xp } },
          defender', [msg])
    | _, _ => (attacker, defender', [msg])
  else
    (attacker, defender,
      [attacker.name ++ " attacks " ++ defender.name ++
        " but it has no effect!"])

/-! ## The game state (src/main.rs lines 109-129)

Transient presentation state (camera, mouse, previous player position,
the fov-disable debug flag) is excluded; the tcod `fov_map` is embedded
as a boolean-valued function on coordinates, recomputed externally. -/

structure GameState where
  objects : List Object
  map : List (List Tile)
  messages : Messages
  inventory : List Object
  dungeon_level : Nat
  fov : Int → Int → Bool

/-- `objects[PLAYER]`: the source indexes directly (a panic on an empty
collection); the claims all supply the player at index 0. -/
def GameState.player (s : GameState) : Object :=
  (s.objects.get? PLAYER).getD default

/-! ## `GameState::level_up` (src/main.rs lines 234-275) and C2 -/

/-- `GameState::level_up` (src/main.rs lines 234-275).  The stat menu is
the external menu collaborator, looped until a choice is made; the
chosen index enters as a parameter.  The source unwraps the player
Fighter facet after the xp test succeeds (with an absent facet the
`map_or` default 0 cannot reach the positive threshold while the level
is nonnegative); the unreachable absent-facet case is embedded as
leaving the player unchanged. -/
def level_up (s : GameState) (choice : Fin 3) : GameState :=
  let player := s.player
  let level_up_xp := LEVEL_UP_BASE + player.level * LEVEL_UP_FACTOR
  if (player.fighter.map Fighter.xp).getD 0 ≥ level_up_xp then
    let player := { player with level := player.level + 1 }
    let messages := s.messages.message
      ("Your battle skills grow stronger! You reached level " ++
        toString player.level ++ "!") .yellow
    let player :=
      match player.fighter with
      | none => player
      | some f =>
        let f := { f with xp := f.xp - level_up_xp }
        let f :=
          if choice.val = 0 then
            { f with max_hp := f.max_hp + 20, hp := f.hp + 20 }
          else if choice.val = 1 then
            { f with power := f.power + 1 }
          else
            { f with defense := f.defense + 1 }
        { player with fighter := some f }
    { s with objects := s.objects.set PLAYER player, messages := messages }
  else
    s

/-- The player object as created by `GameState::new` (src/main.rs lines
132-143), with a given level and accumulated xp. -/
def mkPlayer (level xp : Int) : Object where
  x := 0
  y := 0
  name := "player"
  blocks := true
  alive := true
  always_visible := false
  level := level
  fighter := some ⟨30, 30, 2, 5, xp, .Player⟩
  ai := none
  item := none

/-- A minimal game state holding the given objects, an empty log of the
source capacity, and the given inventory. -/
def mkState (objects : List Object) (inventory : List Object) : GameState where
  objects := objects
  map := []
  messages := { capacity := MSG_HEIGHT, entries := [] }
  inventory := inventory
  dungeon_level := 1
  fov := fun _ _ => true

/-- C2 counterexample: a level-1 player whose accumulated xp is exactly
200 does not level up, because the threshold at level 1 is
200 + 1 × 150 = 350; level and xp are unchanged. -/
theorem level_up_at_200_no_level_up :
    (level_up (mkState [mkPlayer 1 200] []) ⟨0, by decide⟩).player.level = 1 ∧
    ((level_up (mkState [mkPlayer 1 200] []) ⟨0, by decide⟩).player.fighter.map
      Fighter.xp).getD 0 = 200 := by
  constructor <;> decide

/-- C2 (amended): a level-up occurs exactly when accumulated xp reaches
LEVEL_UP_BASE + current_level × LEVEL_UP_FACTOR (at level 1 that
threshold is 350, not 200), and that threshold is deducted from xp
rather than resetting xp to zero, so overflow xp carries forward. -/
theorem level_up_arithmetic (s : GameState) (choice : Fin 3)
    (p : Object) (f : Fighter)
    (hp : s.objects.get? PLAYER = some p) (hf : p.fighter = some f) :
    (f.xp < LEVEL_UP_BASE + p.level * LEVEL_UP_FACTOR →
      level_up s choice = s) ∧
    (f.xp ≥ LEVEL_UP_BASE + p.level * LEVEL_UP_FACTOR →
      (level_up s choice).player.level = p.level + 1 ∧
      ((level_up s choice).player.fighter.map Fighter.xp).getD 0 =
        f.xp - (LEVEL_UP_BASE + p.level * LEVEL_UP_FACTOR)) := by
  have hplayer : s.player = p := by
    unfold GameState.player
    rw [hp]
    rfl
  constructor
  · intro hlt
    simp only [level_up, hplayer, hf, Option.map_some', Option.getD_some,
      ge_iff_le]
    rw [if_neg (by omega)]
  · intro hge
    obtain ⟨hlen, -⟩ := List.get?_eq_some.mp hp
    simp only [level_up, hplayer, hf, Option.map_some', Option.getD_some,
      ge_iff_le]
    rw [if_pos (by omega)]
    simp only [GameState.player, List.get?_eq_getElem?,
      List.getElem?_set_self hlen, Option.getD_some]
    by_cases hc0 : choice.val = 0 <;> by_cases hc1 : choice.val = 1 <;>
      simp [hf, hc0, hc1]

/-- Witness for C2: at level 1 the threshold is 350: xp exactly 350
levels up to level 2 with 0 leftover xp; xp 410 levels up leaving 60
leftover xp. -/
theorem level_up_arithmetic_witness :
    (level_up (mkState [mkPlayer 1 350] []) ⟨0, by decide⟩).player.level = 2 ∧
    ((level_up (mkState [mkPlayer 1 350] []) ⟨0, by decide⟩).player.fighter.map
      Fighter.xp).getD 0 = 0 ∧
    ((level_up (mkState [mkPlayer 1 410] []) ⟨0, by decide⟩).player.fighter.map
      Fighter.xp).getD 0 = 60 := by
  have h1 := (level_up_arithmetic (mkState [mkPlayer 1 350] []) ⟨0, by decide⟩
    (mkPlayer 1 350) ⟨30, 30, 2, 5, 350, .Player⟩ rfl rfl).2 (by decide)
  have h2 := (level_up_arithmetic (mkState [mkPlayer 1 410] []) ⟨0, by decide⟩
    (mkPlayer 1 410) ⟨30, 30, 2, 5, 410, .Player⟩ rfl rfl).2 (by decide)
  refine ⟨?_, ?_, ?_⟩
  · rw [h1.1]; decide
  · rw [h1.2]; decide
  · rw [h2.2]; decide

/-! ## `GameState::pick_item_up` (src/main.rs lines 431-442) and C7 -/

/-- `Vec::swap_remove(i)`: replace the element at `i` with the last
element and pop the last slot; the source panics when `i` is out of
bounds (the embedding then leaves the list unchanged, and the theorems
carry the in-bounds hypothesis). -/
def swapRemove {α : Type _} (l : List α) (i : Nat) : List α :=
  match l.getLast? with
  | none => l
  | some last => (l.set i last).dropLast

/-- `swapRemove` removes exactly the element at the given in-bounds
index, up to reordering. -/
theorem swapRemove_perm {α : Type _} (l : List α) (i : Nat)
    (h : i < l.length) :
    (swapRemove l i).Perm (l.eraseIdx i) := by
  induction l using List.reverseRecOn with
  | nil => simp at h
  | append_singleton ts b _ =>
    have hform : swapRemove (ts ++ [b]) i = ((ts ++ [b]).set i b).dropLast := by
      unfold swapRemove
      rw [List.getLast?_concat]
    rw [hform]
    rcases Nat.lt_or_ge i ts.length with hi | hi
    · rw [List.set_append_left _ _ hi, List.dropLast_concat,
        List.eraseIdx_append_of_lt_length hi]
      rw [List.set_eq_take_cons_drop b hi, List.eraseIdx_eq_take_drop_succ]
      exact List.perm_middle.trans (List.perm_append_singleton _ _).symm
    · have hieq : i = ts.length := by
        simp only [List.length_append, List.length_singleton] at h
        omega
      subst hieq
      rw [List.set_append_right _ _ (Nat.le_refl _),
        List.eraseIdx_append_of_length_le (Nat.le_refl _)]
      simp

/-- `GameState::pick_item_up` (src/main.rs lines 431-442): reject with a
log message when the inventory holds 26 items or more; otherwise remove
the object from the world collection (`swap_remove`) and append it to
the inventory. -/
def pick_item_up (s : GameState) (object_id : Nat) : GameState :=
  if s.inventory.length ≥ 26 then
    let text := "Your inventory is full, cannot pick up " ++
      ((s.objects.get? object_id).getD default).name ++ "."
    { s with messages := s.messages.message text .red }
  else
    let item := (s.objects.get? object_id).getD default
    let messages := s.messages.message ("You picked up a " ++ item.name ++ "!") .green
    { s with
      objects := swapRemove s.objects object_id
      messages := messages
      inventory := s.inventory ++ [item] }

/-- C7: when the inventory already holds the slot-capacity 26 items,
`pick_item_up` only appends a rejection message: the inventory and the
world collection (hence the item, at its position) are unchanged.  Below
capacity, the item object is appended to the inventory and removed from
the world collection (a `swap_remove`, i.e. the world collection is a
permutation of the old one with the item deleted). -/
theorem pick_item_up_capacity (s : GameState) (object_id : Nat)
    (hid : object_id < s.objects.length) :
    (s.inventory.length = 26 →
      pick_item_up s object_id =
        { s with messages := s.messages.message ("Your inventory is full, cannot pick up " ++ (s.objects.get ⟨object_id, hid⟩).name ++ ".") .red }) ∧
    (s.inventory.length < 26 →
      (pick_item_up s object_id).inventory =
        s.inventory ++ [s.objects.get ⟨object_id, hid⟩] ∧
      ((pick_item_up s object_id).objects).Perm
        (s.objects.eraseIdx object_id) ∧
      (pick_item_up s object_id).objects.length + 1 = s.objects.length) := by
  have hget : (s.objects.get? object_id).getD default =
      s.objects.get ⟨object_id, hid⟩ := by
    rw [List.get?_eq_get hid, Option.getD_some]
  constructor
  · intro hfull
    unfold pick_item_up
    rw [if_pos (by omega), hget]
  · intro hlt
    unfold pick_item_up
    rw [if_neg (by omega)]
    refine ⟨by rw [hget], swapRemove_perm s.objects object_id hid, ?_⟩
    have := (swapRemove_perm s.objects object_id hid).length_eq
    simp only [this]
    rw [List.length_eraseIdx, if_pos hid]
    omega

/-- A healing-potion item object as created by `place_objects`
(src/map.rs lines 294-299). -/
def healingPotion : Object where
  x := 2
  y := 3
  name := "healing potion"
  blocks := false
  alive := false
  always_visible := true
  level := 1
  fighter := none
  ai := none
  item := some .Heal

/-- Witness for C7: with a full 26-slot inventory the pickup is
rejected and the world collection is unchanged; with an empty inventory
the item moves from the world collection into the inventory. -/
theorem pick_item_up_capacity_witness :
    (pick_item_up (mkState [mkPlayer 1 0, healingPotion]
      (List.replicate 26 healingPotion)) 1).inventory.length = 26 ∧
    (pick_item_up (mkState [mkPlayer 1 0, healingPotion]
      (List.replicate 26 healingPotion)) 1).objects =
      [mkPlayer 1 0, healingPotion] ∧
    (pick_item_up (mkState [mkPlayer 1 0, healingPotion] []) 1).inventory =
      [healingPotion] ∧
    (pick_item_up (mkState [mkPlayer 1 0, healingPotion] []) 1).objects.length = 1 := by
  have hfull := (pick_item_up_capacity
    (mkState [mkPlayer 1 0, healingPotion] (List.replicate 26 healingPotion)) 1
    (by decide)).1 (by decide)
  have hroom := (pick_item_up_capacity
    (mkState [mkPlayer 1 0, healingPotion] []) 1 (by decide)).2 (by decide)
  refine ⟨?_, ?_, ?_, ?_⟩
  · rw [hfull]; decide
  · rw [hfull]; rfl
  · rw [hroom.1]; decide
  · have h1 := hroom.2.2
    have h2 : (mkState [mkPlayer 1 0, healingPotion] []).objects.length = 2 := rfl
    omega

/-! ## C1: combat conservation -/

/-- Characterization of `take_damage` on an object with a Fighter facet:
the hp is reduced (only for positive damage) and clamped at 0; the actor
stays alive unless the new hp is 0; the xp reward is reported exactly on
the kill of a live actor.  Both on-death variants preserve the `alive`
flag and the Fighter facet. -/
theorem take_damage_spec (o : Object) (f : Fighter) (d : Int)
    (hf : o.fighter = some f) :
    (take_damage o d).1.fighter =
      some { f with hp := if d > 0 then max 0 (f.hp - d) else f.hp } ∧
    (take_damage o d).1.alive =
      (o.alive && !decide ((if d > 0 then max 0 (f.hp - d) else f.hp) = 0)) ∧
    (take_damage o d).2 =
      (if (if d > 0 then max 0 (f.hp - d) else f.hp) = 0 ∧ o.alive = true
       then some f.xp else none) := by
  unfold take_damage
  rw [hf]
  by_cases hdeath : ((if d > 0 then max 0 (f.hp - d) else f.hp) = 0 ∧ o.alive = true)
  · cases hcb : f.on_death <;>
      simp [DeathCallback.callback, hcb, hdeath, hdeath.1, hdeath.2]
  · rw [Decidable.not_and_iff_or_not] at hdeath
    rcases hdeath with hdeath | hdeath
    · simp [hdeath, Bool.and_comm]
    · have hal : o.alive = false := by
        cases h : o.alive
        · rfl
        · exact absurd h hdeath
      simp [hal]

/-- C1: for every attacker and defender with Fighter facets (and the
alive-actors-have-positive-hp invariant), `attack` never drives the
defender hp below 0; a resulting hp of 0 implies the defender is marked
not-alive, and the transition happens exactly once: the kill of a live
defender transfers the configured xp reward to the attacker (which has a
Fighter facet), while attacking an already-dead defender leaves it dead
and transfers nothing. -/
theorem attack_conservation (attacker defender : Object) (af df : Fighter)
    (ha : attacker.fighter = some af) (hd : defender.fighter = some df)
    (hhp : 0 ≤ df.hp) (hinv : defender.alive = true → 0 < df.hp) :
    0 ≤ (((attack attacker defender).2.1.fighter.map Fighter.hp).getD 0) ∧
    ((((attack attacker defender).2.1.fighter.map Fighter.hp).getD 0) = 0 →
      (attack attacker defender).2.1.alive = false) ∧
    (defender.alive = true →
      (((attack attacker defender).2.1.fighter.map Fighter.hp).getD 0) = 0 →
      ((attack attacker defender).1.fighter.map Fighter.xp).getD 0 =
        af.xp + df.xp) ∧
    (defender.alive = false →
      (attack attacker defender).2.1.alive = false ∧
      (attack attacker defender).1 = attacker) := by
  by_cases hdm : af.power - df.defense > 0
  · obtain ⟨hf', hal', hrw'⟩ :=
      take_damage_spec defender df (af.power - df.defense) hd
    rw [if_pos hdm] at hf' hal' hrw'
    set dmg := af.power - df.defense with hdmg
    by_cases hk : (max 0 (df.hp - dmg) = 0 ∧ defender.alive = true)
    · have hr : (take_damage defender dmg).2 = some df.xp := by
        rw [hrw', if_pos hk]
      have hpair : take_damage defender dmg =
          ((take_damage defender dmg).1, some df.xp) := by
        rw [← hr]
      have heval : attack attacker defender =
          ({ attacker with fighter := some { af with xp := af.xp + df.xp } },
            (take_damage defender dmg).1,
            [attacker.name ++ " attacks " ++ defender.name ++ " for " ++
              toString dmg ++ " hit points."]) := by
        unfold attack
        rw [ha, hd]
        simp only [Option.map_some', Option.getD_some]
        rw [if_pos hdm, hpair]
      rw [heval]
      simp only [hf', hal', Option.map_some', Option.getD_some]
      refine ⟨le_max_left 0 _, ?_, ?_, ?_⟩
      · intro _
        rw [hk.2]
        simp [hk.1]
      · intro _ _
        trivial
      · intro hdead
        rw [hdead] at hk
        exact absurd hk.2 (by simp)
    · have hr : (take_damage defender dmg).2 = none := by
        rw [hrw', if_neg hk]
      have hpair : take_damage defender dmg =
          ((take_damage defender dmg).1, none) := by
        rw [← hr]
      have heval : attack attacker defender =
          (attacker, (take_damage defender dmg).1,
            [attacker.name ++ " attacks " ++ defender.name ++ " for " ++
              toString dmg ++ " hit points."]) := by
        unfold attack
        rw [ha, hd]
        simp only [Option.map_some', Option.getD_some]
        rw [if_pos hdm, hpair]
      rw [heval]
      simp only [hf', hal', Option.map_some', Option.getD_some]
      refine ⟨le_max_left 0 _, ?_, ?_, ?_⟩
      · intro h0
        cases halive : defender.alive
        · simp
        · exact absurd ⟨h0, halive⟩ hk
      · intro halive h0
        exact absurd ⟨h0, halive⟩ hk
      · intro hdead
        rw [hdead]
        exact ⟨rfl, trivial⟩
  · have heval : attack attacker defender = (attacker, defender,
        [attacker.name ++ " attacks " ++ defender.name ++
          " but it has no effect!"]) := by
      unfold attack
      rw [ha, hd]
      simp only [Option.map_some', Option.getD_some]
      rw [if_neg hdm]
    rw [heval]
    simp only [hd, Option.map_some', Option.getD_some]
    refine ⟨hhp, ?_, ?_, ?_⟩
    · intro h0
      cases halive : defender.alive
      · rfl
      · have := hinv halive
        omega
    · intro halive h0
      have := hinv halive
      omega
    · intro hdead
      exact ⟨hdead, trivial⟩

/-- An orc monster object as created by `place_objects` (src/map.rs
lines 226-238), at a given position, with a given hp and xp reward. -/
def mkOrc (x y hp xp : Int) : Object where
  x := x
  y := y
  name := "orc"
  blocks := true
  alive := true
  always_visible := false
  level := 1
  fighter := some ⟨20, hp, 0, 4, xp, .Monster⟩
  ai := some .Basic
  item := none

/-- Witness for C1: the player (power 5) attacks an orc at 4 hp
(defense 0): the resulting hp is clamped at 0, the orc is marked dead,
and its 35 xp transfer to the player. -/
theorem attack_conservation_witness :
    (0 : Int) ≤
      (((attack (mkPlayer 1 0) (mkOrc 1 0 4 35)).2.1.fighter.map
        Fighter.hp).getD 0) ∧
    ((attack (mkPlayer 1 0) (mkOrc 1 0 4 35)).2.1.alive = false) ∧
    (((attack (mkPlayer 1 0) (mkOrc 1 0 4 35)).1.fighter.map
      Fighter.xp).getD 0 = 0 + 35) := by
  have h := attack_conservation (mkPlayer 1 0) (mkOrc 1 0 4 35)
    ⟨30, 30, 2, 5, 0, .Player⟩ ⟨20, 4, 0, 4, 35, .Monster⟩ rfl rfl
    (by decide) (fun _ => by decide)
  exact ⟨h.1, h.2.1 (by decide), h.2.2.1 rfl (by decide)⟩

/-! ## Item effects (src/main.rs lines 451-569) -/

/-- `UseResult` (src/main.rs lines 94-97). -/
inductive UseResult where
  | UsedUp
  | Cancelled
  deriving Repr, DecidableEq

/-- `GameState::cast_heal` (src/main.rs lines 476-488): at full health
log a message and cancel; otherwise log and heal the player by
`HEAL_AMOUNT`. -/
def cast_heal (s : GameState) : GameState × UseResult :=
  match s.player.fighter with
  | some fighter =>
    if fighter.hp = fighter.max_hp then
      let messages := s.messages.message "You are already at full health." .red
      ({ s with messages := messages }, .Cancelled)
    else
      let messages := s.messages.message "Your wounds start to feel better!" .lightViolet
      ({ s with
          messages := messages
          objects := s.objects.set PLAYER (s.player.heal HEAL_AMOUNT) }, .UsedUp)
  | none => (s, .Cancelled)

/-- The eligibility test of the `closest_monster` scan (src/main.rs
line 220): a non-player actor with Fighter and AI facets whose tile is
in the player FOV. -/
def lightning_eligible (s : GameState) (id : Nat) (o : Object) : Bool :=
  id != PLAYER && o.fighter.isSome && o.ai.isSome && s.fov o.x o.y

/-- The scan loop of `GameState::closest_monster` (src/main.rs lines
219-230) over the enumerated objects; `closest_dist` carries the
squared bound (see the header note on squared distances). -/
def closest_monster_go (s : GameState) :
    List Object → Nat → Option Nat → Int → Option Nat
  | [], _, closest_enemy, _ => closest_enemy
  | object :: rest, id, closest_enemy, closest_dist =>
    if lightning_eligible s id object then
      let dist := s.player.distance_sq_to object
      if dist < closest_dist then
        closest_monster_go s rest (id + 1) (some id) dist
      else
        closest_monster_go s rest (id + 1) closest_enemy closest_dist
    else
      closest_monster_go s rest (id + 1) closest_enemy closest_dist

/-- `GameState::closest_monster` (src/main.rs lines 214-232): the
closest non-player actor with Fighter and AI facets in the player FOV,
starting from a bound of slightly more than the maximum range
(`(max_range + 1)`, squared here). -/
def closest_monster (s : GameState) (max_range : Int) : Option Nat :=
  closest_monster_go s s.objects 0 none ((max_range + 1) ^ 2)

/-- `GameState::cast_lightning` (src/main.rs lines 490-509): strike the
closest monster within the lightning range bound for `LIGHTNING_DAMAGE`,
awarding its xp to the player on a kill; with no target, log the
failure message and cancel. -/
def cast_lightning (s : GameState) : GameState × UseResult :=
  match closest_monster s LIGHTNING_RANGE with
  | some monster_id =>
    let monster := (s.objects.get? monster_id).getD default
    let text := "A lightning bolt strikes the " ++ monster.name ++
      " with a loud thunder! The damage is " ++ toString LIGHTNING_DAMAGE ++
      " hit points."
    let s1 := { s with messages := s.messages.message text .lightBlue }
    let res := take_damage monster LIGHTNING_DAMAGE
    let s2 := { s1 with objects := s1.objects.set monster_id res.1 }
    match res.2 with
    | some xp =>
      match s2.player.fighter with
      | some f =>
        let player := { s2.player with fighter := some { f with xp := f.xp + xp } }
        ({ s2 with objects := s2.objects.set PLAYER player }, .UsedUp)
      | none => (s2, .UsedUp)
    | none => (s2, .UsedUp)
  | none =>
    let messages := s.messages.message "No enemy is close enough to strike." .red
    ({ s with messages := messages }, .Cancelled)

/-- `GameState::cast_confuse` (src/main.rs lines 511-534); the
interactive `target_monster` protocol is external and enters as the
optional actor index it yields. -/
def cast_confuse (s : GameState) (target : Option Nat) : GameState × UseResult :=
  let m0 := s.messages.message
    "Left-click an enemy to confuse it, or right-click to cancel." .lightCyan
  let s := { s with messages := m0 }
  match target with
  | some monster_id =>
    let monster := (s.objects.get? monster_id).getD default
    let old_ai := monster.ai.getD .Basic
    let monster' := { monster with ai := some (.Confused old_ai CONFUSE_NUM_TURNS) }
    let text := "The eyes of " ++ monster.name ++
      " look vacant, as it starts to stumble around!"
    let messages := s.messages.message text .lightGreen
    ({ s with objects := s.objects.set monster_id monster', messages := messages },
      .UsedUp)
  | none => (s, .Cancelled)

/-- The blast test of the burn loop of `GameState::cast_fireball`
(src/main.rs line 553): a Fighter-bearing object within the blast
radius of the target tile. -/
def fireball_hits (x y : Int) (o : Object) : Bool :=
  o.distance_sq x y ≤ FIREBALL_RADIUS ^ 2 && o.fighter.isSome

/-- The burn loop of `GameState::cast_fireball` (src/main.rs lines
551-565) over the enumerated objects: every hit object takes
`FIREBALL_DAMAGE` with a burn message, and the xp of kills other than
the player accumulates. -/
def fireball_burn (x y : Int) : List Object → Nat → List Object × Int × List String
  | [], _ => ([], 0, [])
  | obj :: rest, id =>
    let acc := fireball_burn x y rest (id + 1)
    if fireball_hits x y obj then
      let res := take_damage obj FIREBALL_DAMAGE
      let gain := if id != PLAYER then res.2.getD 0 else 0
      (res.1 :: acc.1, acc.2.1 + gain,
        ("The " ++ obj.name ++ " gets burned for " ++ toString FIREBALL_DAMAGE ++
          " hit points.") :: acc.2.2)
    else
      (obj :: acc.1, acc.2.1, acc.2.2)

/-- `GameState::cast_fireball` (src/main.rs lines 536-569); the
interactive `target_tile` protocol is external and enters as the
optional tile it yields. -/
def cast_fireball (s : GameState) (target : Option (Int × Int)) :
    GameState × UseResult :=
  let m0 := s.messages.message
    "Left-click a target tile for the fireball, or right-click to cancel." .lightCyan
  let s := { s with messages := m0 }
  match target with
  | none => (s, .Cancelled)
  | some (x, y) =>
    let m1 := s.messages.message
      ("The fireball explodes, burning everything within " ++
        toString FIREBALL_RADIUS ++ " tiles!") .orange
    let s := { s with messages := m1 }
    let res := fireball_burn x y s.objects 0
    let messages := res.2.2.foldl (fun m text => m.message text .orange) s.messages
    let s := { s with objects := res.1, messages := messages }
    match s.player.fighter with
    | some f =>
      let player := { s.player with fighter := some { f with xp := f.xp + res.2.1 } }
      ({ s with objects := s.objects.set PLAYER player }, .UsedUp)
    | none => (s, .UsedUp)

/-- Targeting choices produced by the external interactive targeting
protocols during an item use. -/
structure TargetInput where
  tile : Option (Int × Int)
  monster : Option Nat

/-- The `on_use` dispatch of `GameState::use_item` (src/main.rs lines
455-460). -/
def on_use (item : Item) (s : GameState) (target : TargetInput) :
    GameState × UseResult :=
  match item with
  | .Heal => cast_heal s
  | .Lightning => cast_lightning s
  | .Confuse => cast_confuse s target.monster
  | .Fireball => cast_fireball s target.tile

/-- `GameState::use_item` (src/main.rs lines 451-474): dispatch on the
item kind, then remove the inventory entry exactly when the effect
reports `UsedUp`, logging "Cancelled" otherwise.  The source indexes
`inventory[inventory_id]` (a panic when out of bounds, embedded as a
no-op; the theorems carry the in-bounds hypothesis). -/
def use_item (s : GameState) (inventory_id : Nat) (target : TargetInput) :
    GameState :=
  match s.inventory.get? inventory_id with
  | none => s
  | some invObj =>
    match invObj.item with
    | none =>
      let m0 := s.messages.message ("The " ++ invObj.name ++ " cannot be used.") .white
      { s with messages := m0 }
    | some item =>
      let res := on_use item s target
      match res.2 with
      | .UsedUp =>
        { res.1 with inventory := res.1.inventory.eraseIdx inventory_id }
      | .Cancelled =>
        { res.1 with messages := res.1.messages.message "Cancelled" .white }

/-! ### C5: heal capping and use_item consumption -/

/-- None of the four item effects touches the inventory; consumption is
decided solely by `use_item` from the reported `UseResult`. -/
theorem on_use_inventory (item : Item) (s : GameState) (t : TargetInput) :
    (on_use item s t).1.inventory = s.inventory := by
  cases item <;>
    simp only [on_use, cast_heal, cast_lightning, cast_confuse, cast_fireball] <;>
    (repeat' split) <;> rfl

/-- C5: `cast_heal` restores `HEAL_AMOUNT` to the player hp capped at
max_hp; when the player is already at full health it returns Cancelled,
only log messages change (the potion is not consumed: inventory and
objects are untouched); and `use_item` removes the inventory entry
exactly when the dispatched effect reports UsedUp. -/
theorem cast_heal_capped (s : GameState) (i : Nat) (p : Object) (f : Fighter)
    (t : TargetInput)
    (hplayer : s.objects.get? PLAYER = some p) (hf : p.fighter = some f)
    (hitem : ∃ o, s.inventory.get? i = some o ∧ o.item = some Item.Heal) :
    (f.hp = f.max_hp →
      (cast_heal s).2 = .Cancelled ∧
      (cast_heal s).1.objects = s.objects ∧
      (cast_heal s).1.inventory = s.inventory ∧
      (cast_heal s).1.messages =
        s.messages.message "You are already at full health." .red ∧
      (use_item s i t).inventory = s.inventory ∧
      (use_item s i t).objects = s.objects) ∧
    (f.hp ≠ f.max_hp →
      (cast_heal s).2 = .UsedUp ∧
      ((cast_heal s).1.player.fighter.map Fighter.hp).getD 0 =
        min (f.hp + HEAL_AMOUNT) f.max_hp ∧
      (use_item s i t).inventory = s.inventory.eraseIdx i) ∧
    (∀ (it : Item) (o : Object), s.inventory.get? i = some o →
      o.item = some it →
      (use_item s i t).inventory =
        (if (on_use it s t).2 = .UsedUp then s.inventory.eraseIdx i
         else s.inventory)) := by
  obtain ⟨o, ho, hoi⟩ := hitem
  obtain ⟨hlen, -⟩ := List.get?_eq_some.mp hplayer
  have hsp : s.player = p := by
    unfold GameState.player
    rw [hplayer]
    rfl
  have hgeneric : ∀ (it : Item) (o : Object), s.inventory.get? i = some o →
      o.item = some it →
      (use_item s i t).inventory =
        (if (on_use it s t).2 = .UsedUp then s.inventory.eraseIdx i
         else s.inventory) := by
    intro it o1 ho1 hoi1
    unfold use_item
    rw [ho1]
    dsimp only
    rw [hoi1]
    dsimp only
    cases hres : (on_use it s t).2 with
    | UsedUp =>
      have heta : (on_use it s t) = ((on_use it s t).1, UseResult.UsedUp) := by
        rw [← hres]
      rw [heta]
      dsimp only
      rw [on_use_inventory, if_pos rfl]
    | Cancelled =>
      have heta : (on_use it s t) = ((on_use it s t).1, UseResult.Cancelled) := by
        rw [← hres]
      rw [heta]
      dsimp only
      rw [on_use_inventory, if_neg (by decide)]
  refine ⟨?_, ?_, hgeneric⟩
  · intro hfull
    have hc2 : (cast_heal s).2 = UseResult.Cancelled := by
      unfold cast_heal
      rw [hsp, hf]
      dsimp only
      rw [if_pos hfull]
    have hobj : (cast_heal s).1.objects = s.objects := by
      unfold cast_heal
      rw [hsp, hf]
      dsimp only
      rw [if_pos hfull]
    have hinv : (cast_heal s).1.inventory = s.inventory := by
      unfold cast_heal
      rw [hsp, hf]
      dsimp only
      rw [if_pos hfull]
    have hmsg : (cast_heal s).1.messages =
        s.messages.message "You are already at full health." .red := by
      unfold cast_heal
      rw [hsp, hf]
      dsimp only
      rw [if_pos hfull]
    have hou : on_use Item.Heal s t = ((cast_heal s).1, UseResult.Cancelled) := by
      show cast_heal s = _
      rw [← hc2]
    have huse := hgeneric Item.Heal o ho hoi
    rw [show (on_use Item.Heal s t).2 = UseResult.Cancelled from hc2,
      if_neg (by decide)] at huse
    have huseobj : (use_item s i t).objects = s.objects := by
      unfold use_item
      rw [ho]
      dsimp only
      rw [hoi]
      dsimp only
      rw [hou]
      dsimp only
      rw [hobj]
    exact ⟨hc2, hobj, hinv, hmsg, huse, huseobj⟩
  · intro hne
    have hc2 : (cast_heal s).2 = UseResult.UsedUp := by
      unfold cast_heal
      rw [hsp, hf]
      dsimp only
      rw [if_neg hne]
    have hobj : (cast_heal s).1.objects =
        s.objects.set PLAYER (s.player.heal HEAL_AMOUNT) := by
      unfold cast_heal
      rw [hsp, hf]
      dsimp only
      rw [if_neg hne]
    have huse := hgeneric Item.Heal o ho hoi
    rw [show (on_use Item.Heal s t).2 = UseResult.UsedUp from hc2,
      if_pos rfl] at huse
    refine ⟨hc2, ?_, huse⟩
    show (((cast_heal s).1.objects.get? PLAYER).getD default |>.fighter.map
      Fighter.hp).getD 0 = _
    rw [hobj, List.get?_eq_getElem?, List.getElem?_set_self hlen,
      Option.getD_some, hsp]
    unfold Object.heal
    rw [hf]
    dsimp only
    rw [Option.map_some', Option.getD_some]

/-- The player at 20 of 30 hp. -/
def hurtPlayer : Object :=
  { mkPlayer 1 0 with fighter := some ⟨30, 20, 2, 5, 0, .Player⟩ }

/-- Witness for C5: at full health (30/30) the heal cancels and the
potion stays in the inventory; at 20/30 the heal yields 24 hp and the
potion is consumed. -/
theorem cast_heal_capped_witness :
    (cast_heal (mkState [mkPlayer 1 0] [healingPotion])).2 = .Cancelled ∧
    (use_item (mkState [mkPlayer 1 0] [healingPotion]) 0 ⟨none, none⟩).inventory =
      [healingPotion] ∧
    ((cast_heal (mkState [hurtPlayer] [healingPotion])).1.player.fighter.map
      Fighter.hp).getD 0 = 24 ∧
    (use_item (mkState [hurtPlayer] [healingPotion]) 0 ⟨none, none⟩).inventory =
      [] := by
  have h1 := cast_heal_capped (mkState [mkPlayer 1 0] [healingPotion]) 0
    (mkPlayer 1 0) ⟨30, 30, 2, 5, 0, .Player⟩ ⟨none, none⟩ rfl rfl
    ⟨healingPotion, rfl, rfl⟩
  have h2 := cast_heal_capped (mkState [hurtPlayer] [healingPotion]) 0
    hurtPlayer ⟨30, 20, 2, 5, 0, .Player⟩ ⟨none, none⟩ rfl rfl
    ⟨healingPotion, rfl, rfl⟩
  obtain ⟨hfull, -, -⟩ := h1
  obtain ⟨-, hne, -⟩ := h2
  obtain ⟨ha, -, -, -, hb, -⟩ := hfull rfl
  obtain ⟨-, hc, hd⟩ := hne (by decide)
  refine ⟨ha, ?_, ?_, ?_⟩
  · rw [hb]; rfl
  · rw [hc]; decide
  · rw [hd]; decide

/-! ### C4: lightning targeting -/

/-- Characterization of the `closest_monster` scan loop: either no
eligible actor beats the running bound and the running best is
returned, or the result is an eligible actor strictly inside the bound
whose distance is minimal among all eligible actors of the scanned
suffix. -/
theorem closest_monster_go_spec (s : GameState) (objs : List Object)
    (id0 : Nat) (best : Option Nat) (bestd : Int) :
    (closest_monster_go s objs id0 best bestd = best ∧
      ∀ (k : Nat) (o : Object), objs.get? k = some o →
        lightning_eligible s (id0 + k) o = true →
        ¬ s.player.distance_sq_to o < bestd) ∨
    (∃ (k : Nat) (o : Object), objs.get? k = some o ∧
      closest_monster_go s objs id0 best bestd = some (id0 + k) ∧
      lightning_eligible s (id0 + k) o = true ∧
      s.player.distance_sq_to o < bestd ∧
      ∀ (j : Nat) (oj : Object), objs.get? j = some oj →
        lightning_eligible s (id0 + j) oj = true →
        s.player.distance_sq_to o ≤ s.player.distance_sq_to oj) := by
  induction objs generalizing id0 best bestd with
  | nil =>
    left
    exact ⟨rfl, fun k o hk => by simp at hk⟩
  | cons o rest ih =>
    by_cases he : lightning_eligible s id0 o = true
    · by_cases hlt : s.player.distance_sq_to o < bestd
      · have hgo : closest_monster_go s (o :: rest) id0 best bestd =
            closest_monster_go s rest (id0 + 1) (some id0)
              (s.player.distance_sq_to o) := by
          simp only [closest_monster_go, he, if_true, hlt, if_pos]
        rcases ih (id0 + 1) (some id0) (s.player.distance_sq_to o) with
          ⟨hres, hall⟩ | ⟨k, ok, hk, hres, helig, hltk, hmin⟩
        · right
          refine ⟨0, o, rfl, ?_, by simpa using he, hlt, ?_⟩
          · rw [hgo, hres]
            rfl
          · intro j oj hj hej
            cases j with
            | zero =>
              simp only [List.get?_cons_zero, Option.some.injEq] at hj
              subst hj
              exact le_refl _
            | succ j =>
              simp only [List.get?_cons_succ] at hj
              have := hall j oj hj (by
                have harith : id0 + 1 + j = id0 + (j + 1) := by omega
                rw [harith]
                exact hej)
              omega
        · right
          refine ⟨k + 1, ok, by simpa using hk, ?_, ?_, by omega, ?_⟩
          · rw [hgo, hres]
            congr 1
            omega
          · have harith : id0 + (k + 1) = id0 + 1 + k := by omega
            rw [harith]
            exact helig
          · intro j oj hj hej
            cases j with
            | zero =>
              simp only [List.get?_cons_zero, Option.some.injEq] at hj
              subst hj
              omega
            | succ j =>
              simp only [List.get?_cons_succ] at hj
              have := hmin j oj hj (by
                have harith : id0 + 1 + j = id0 + (j + 1) := by omega
                rw [harith]
                exact hej)
              omega
      · have hgo : closest_monster_go s (o :: rest) id0 best bestd =
            closest_monster_go s rest (id0 + 1) best bestd := by
          simp only [closest_monster_go, he, if_true, hlt, if_neg, if_false]
        rcases ih (id0 + 1) best bestd with
          ⟨hres, hall⟩ | ⟨k, ok, hk, hres, helig, hltk, hmin⟩
        · left
          refine ⟨by rw [hgo, hres], ?_⟩
          intro k ok hk hek
          cases k with
          | zero =>
            simp only [List.get?_cons_zero, Option.some.injEq] at hk
            subst hk
            exact hlt
          | succ k =>
            simp only [List.get?_cons_succ] at hk
            exact hall k ok hk (by
              have harith : id0 + 1 + k = id0 + (k + 1) := by omega
              rw [harith]
              exact hek)
        · right
          refine ⟨k + 1, ok, by simpa using hk, ?_, ?_, hltk, ?_⟩
          · rw [hgo, hres]
            congr 1
            omega
          · have harith : id0 + (k + 1) = id0 + 1 + k := by omega
            rw [harith]
            exact helig
          · intro j oj hj hej
            cases j with
            | zero =>
              simp only [List.get?_cons_zero, Option.some.injEq] at hj
              subst hj
              omega
            | succ j =>
              simp only [List.get?_cons_succ] at hj
              have := hmin j oj hj (by
                have harith : id0 + 1 + j = id0 + (j + 1) := by omega
                rw [harith]
                exact hej)
              omega
    · have hgo : closest_monster_go s (o :: rest) id0 best bestd =
          closest_monster_go s rest (id0 + 1) best bestd := by
        simp only [closest_monster_go, he, if_false]
        rw [if_neg (by simp [he])]
      rcases ih (id0 + 1) best bestd with
        ⟨hres, hall⟩ | ⟨k, ok, hk, hres, helig, hltk, hmin⟩
      · left
        refine ⟨by rw [hgo, hres], ?_⟩
        intro k ok hk hek
        cases k with
        | zero =>
          simp only [List.get?_cons_zero, Option.some.injEq] at hk
          subst hk
          exact absurd hek he
        | succ k =>
          simp only [List.get?_cons_succ] at hk
          exact hall k ok hk (by
            have harith : id0 + 1 + k = id0 + (k + 1) := by omega
            rw [harith]
            exact hek)
      · right
        refine ⟨k + 1, ok, by simpa using hk, ?_, ?_, hltk, ?_⟩
        · rw [hgo, hres]
          congr 1
          omega
        · have harith : id0 + (k + 1) = id0 + 1 + k := by omega
          rw [harith]
          exact helig
        · intro j oj hj hej
          cases j with
          | zero =>
            simp only [List.get?_cons_zero, Option.some.injEq] at hj
            subst hj
            exact absurd hej he
          | succ j =>
            simp only [List.get?_cons_succ] at hj
            have := hmin j oj hj (by
              have harith : id0 + 1 + j = id0 + (j + 1) := by omega
              rw [harith]
              exact hej)
            omega

/-- Removal of the used inventory entry is dictated solely by the
reported `UseResult` (src/main.rs lines 461-467). -/
theorem use_item_inventory (s : GameState) (i : Nat) (t : TargetInput)
    (it : Item) (o : Object) (ho : s.inventory.get? i = some o)
    (hoi : o.item = some it) :
    (use_item s i t).inventory =
      (if (on_use it s t).2 = .UsedUp then s.inventory.eraseIdx i
       else s.inventory) := by
  unfold use_item
  rw [ho]
  dsimp only
  rw [hoi]
  dsimp only
  cases hres : (on_use it s t).2 with
  | UsedUp =>
    have heta : (on_use it s t) = ((on_use it s t).1, UseResult.UsedUp) := by
      rw [← hres]
    rw [heta]
    dsimp only
    rw [on_use_inventory, if_pos rfl]
  | Cancelled =>
    have heta : (on_use it s t) = ((on_use it s t).1, UseResult.Cancelled) := by
      rw [← hres]
    rw [heta]
    dsimp only
    rw [on_use_inventory, if_neg (by decide)]

/-- C4 counterexample: the only monster sits at squared distance 34
from the player, strictly beyond the lightning range 5 (34 > 25), so
the claim demands the "no enemy is close enough" cancellation; but
`cast_lightning` strikes it and reports UsedUp, because the code
accepts any distance strictly below LIGHTNING_RANGE + 1. -/
theorem cast_lightning_beyond_range :
    LIGHTNING_RANGE ^ 2 <
      (mkState [mkPlayer 1 0, mkOrc 3 5 20 35] []).player.distance_sq_to
        (mkOrc 3 5 20 35) ∧
    (cast_lightning (mkState [mkPlayer 1 0, mkOrc 3 5 20 35] [])).2 =
      UseResult.UsedUp := by
  constructor <;> decide

/-- C4 (amended): `cast_lightning` targets the nearest actor that is
non-player, has both Fighter and AI facets, is in the player FOV, and
lies at distance strictly below LIGHTNING_RANGE + 1 (squared distance
below (LIGHTNING_RANGE + 1)^2 — not distance at most LIGHTNING_RANGE),
applying LIGHTNING_DAMAGE to it and awarding the xp of a kill to the
player; when no such actor exists it logs the "no enemy is close
enough" message, returns Cancelled, the world collection and the
inventory are unchanged, and a lightning scroll stays in the inventory
under `use_item`. -/
theorem cast_lightning_spec (s : GameState) (p : Object) (f : Fighter)
    (hp : s.objects.get? PLAYER = some p) (hf : p.fighter = some f) :
    (closest_monster s LIGHTNING_RANGE = none →
      (∀ (j : Nat) (o : Object), s.objects.get? j = some o →
        lightning_eligible s j o = true →
        ¬ s.player.distance_sq_to o < (LIGHTNING_RANGE + 1) ^ 2) ∧
      (cast_lightning s).2 = .Cancelled ∧
      (cast_lightning s).1.objects = s.objects ∧
      (cast_lightning s).1.inventory = s.inventory ∧
      (cast_lightning s).1.messages =
        s.messages.message "No enemy is close enough to strike." .red ∧
      (∀ (i : Nat) (t : TargetInput) (o : Object),
        s.inventory.get? i = some o → o.item = some Item.Lightning →
        (use_item s i t).inventory = s.inventory)) ∧
    (∀ m, closest_monster s LIGHTNING_RANGE = some m →
      ∃ o, s.objects.get? m = some o ∧
        lightning_eligible s m o = true ∧
        s.player.distance_sq_to o < (LIGHTNING_RANGE + 1) ^ 2 ∧
        (∀ (j : Nat) (oj : Object), s.objects.get? j = some oj →
          lightning_eligible s j oj = true →
          s.player.distance_sq_to o ≤ s.player.distance_sq_to oj) ∧
        (cast_lightning s).2 = .UsedUp ∧
        (cast_lightning s).1.objects.get? m =
          some (take_damage o LIGHTNING_DAMAGE).1 ∧
        ((cast_lightning s).1.player.fighter.map Fighter.xp).getD 0 =
          f.xp + ((take_damage o LIGHTNING_DAMAGE).2.getD 0)) := by
  constructor
  · intro hnone
    have hnone' : closest_monster_go s s.objects 0 none
        ((LIGHTNING_RANGE + 1) ^ 2) = none := hnone
    have hcl : cast_lightning s = ({ s with messages := s.messages.message "No enemy is close enough to strike." .red }, .Cancelled) := by
      unfold cast_lightning
      rw [hnone]
    rcases closest_monster_go_spec s s.objects 0 none
        ((LIGHTNING_RANGE + 1) ^ 2) with ⟨-, hall⟩ | ⟨k, o, hk, hres, -⟩
    · simp only [Nat.zero_add] at hall
      refine ⟨hall, by rw [hcl], by rw [hcl], by rw [hcl], by rw [hcl], ?_⟩
      intro i t o ho hoi
      rw [use_item_inventory s i t Item.Lightning o ho hoi]
      rw [show (on_use Item.Lightning s t).2 = UseResult.Cancelled from by
        show (cast_lightning s).2 = _
        rw [hcl]]
      rw [if_neg (by decide)]
    · rw [hnone'] at hres
      exact Option.noConfusion hres
  · intro m hm
    have hm' : closest_monster_go s s.objects 0 none
        ((LIGHTNING_RANGE + 1) ^ 2) = some m := hm
    rcases closest_monster_go_spec s s.objects 0 none
        ((LIGHTNING_RANGE + 1) ^ 2) with ⟨hres, -⟩ | ⟨k, o, hk, hres, helig, hlt, hmin⟩
    · rw [hm'] at hres
      exact Option.noConfusion hres
    · simp only [Nat.zero_add] at hres helig hmin
      rw [hm'] at hres
      have hmk : m = k := Option.some.inj hres
      subst hmk
      have hk0 : m ≠ PLAYER := by
        have := helig
        simp only [lightning_eligible, Bool.and_eq_true, bne_iff_ne] at this
        exact this.1.1.1
      have hklen : m < s.objects.length := (List.get?_eq_some.mp hk).1
      have hset0 : (s.objects.set m (take_damage o LIGHTNING_DAMAGE).1).get? PLAYER =
          some p := by
        rw [List.get?_eq_getElem?, List.getElem?_set_ne (fun h => hk0 h),
          ← List.get?_eq_getElem?]
        exact hp
      refine ⟨o, hk, helig, hlt, hmin, ?_⟩
      rcases hr2 : (take_damage o LIGHTNING_DAMAGE).2 with _ | xp
      · have heta : take_damage o LIGHTNING_DAMAGE =
            ((take_damage o LIGHTNING_DAMAGE).1, none) := by rw [← hr2]
        have hred : cast_lightning s = ({ s with messages := s.messages.message ("A lightning bolt strikes the " ++ o.name ++ " with a loud thunder! The damage is " ++ toString LIGHTNING_DAMAGE ++ " hit points.") .lightBlue, objects := s.objects.set m (take_damage o LIGHTNING_DAMAGE).1 }, .UsedUp) := by
          unfold cast_lightning
          rw [hm]
          dsimp only
          rw [hk, Option.getD_some]
          rw [heta]
        refine ⟨by rw [hred], ?_, ?_⟩
        · rw [hred]
          rw [List.get?_eq_getElem?, List.getElem?_set_self hklen]
        · rw [hred]
          show ((((s.objects.set m (take_damage o LIGHTNING_DAMAGE).1).get?
            PLAYER).getD default).fighter.map Fighter.xp).getD 0 = _
          rw [hset0, Option.getD_some, hf, Option.map_some', Option.getD_some]
          simp
      · have heta : take_damage o LIGHTNING_DAMAGE =
            ((take_damage o LIGHTNING_DAMAGE).1, some xp) := by rw [← hr2]
        have hpf : ((((s.objects.set m (take_damage o LIGHTNING_DAMAGE).1).get?
            PLAYER).getD default)).fighter = some f := by
          rw [hset0, Option.getD_some, hf]
        have hred : cast_lightning s = ({ s with messages := s.messages.message ("A lightning bolt strikes the " ++ o.name ++ " with a loud thunder! The damage is " ++ toString LIGHTNING_DAMAGE ++ " hit points.") .lightBlue, objects := (s.objects.set m (take_damage o LIGHTNING_DAMAGE).1).set PLAYER ({ (((s.objects.set m (take_damage o LIGHTNING_DAMAGE).1).get? PLAYER).getD default) with fighter := some { f with xp := f.xp + xp } }) }, .UsedUp) := by
          unfold cast_lightning
          rw [hm]
          dsimp only
          rw [hk, Option.getD_some]
          rw [heta]
          dsimp only
          show (match (((s.objects.set m (take_damage o LIGHTNING_DAMAGE).1).get?
            PLAYER).getD default).fighter with
            | some f => _
            | none => _) = _
          rw [hpf]
          rfl
        have hlen2 : PLAYER < (s.objects.set m
            (take_damage o LIGHTNING_DAMAGE).1).length := by
          rw [List.length_set]
          exact (List.get?_eq_some.mp hp).1
        refine ⟨by rw [hred], ?_, ?_⟩
        · rw [hred]
          rw [List.get?_eq_getElem?, List.getElem?_set_ne (fun h => hk0 h.symm),
            List.getElem?_set_self hklen]
        · rw [hred]
          show (((((s.objects.set m (take_damage o LIGHTNING_DAMAGE).1).set
            PLAYER _).get? PLAYER).getD default).fighter.map Fighter.xp).getD 0 = _
          rw [List.get?_eq_getElem?, List.getElem?_set_self hlen2,
            Option.getD_some]
          dsimp only
          rw [Option.map_some', Option.getD_some]
          rfl

/-- Witness for C4: with no monster at all the cast cancels and changes
no object; with two orcs at squared distances 9 and 25 the nearer one
is struck and killed, and its 35 xp go to the player. -/
theorem cast_lightning_spec_witness :
    (cast_lightning (mkState [mkPlayer 1 0] [])).2 = UseResult.Cancelled ∧
    (cast_lightning (mkState [mkPlayer 1 0] [])).1.objects = [mkPlayer 1 0] ∧
    (cast_lightning (mkState [mkPlayer 1 0, mkOrc 0 3 20 35, mkOrc 0 5 20 35]
      [])).2 = UseResult.UsedUp ∧
    ((cast_lightning (mkState [mkPlayer 1 0, mkOrc 0 3 20 35, mkOrc 0 5 20 35]
      [])).1.player.fighter.map Fighter.xp).getD 0 = 35 := by
  have h1 := (cast_lightning_spec (mkState [mkPlayer 1 0] []) (mkPlayer 1 0)
    ⟨30, 30, 2, 5, 0, .Player⟩ rfl rfl).1 (by decide)
  have h2 := (cast_lightning_spec
    (mkState [mkPlayer 1 0, mkOrc 0 3 20 35, mkOrc 0 5 20 35] [])
    (mkPlayer 1 0) ⟨30, 30, 2, 5, 0, .Player⟩ rfl rfl).2 1 (by decide)
  obtain ⟨-, hc, hobj, -, -, -⟩ := h1
  obtain ⟨o, ho, -, -, -, hu, -, hxp⟩ := h2
  have ho' : some (mkOrc 0 3 20 35) = some o := ho
  have hoeq : o = mkOrc 0 3 20 35 := (Option.some.inj ho').symm
  subst hoeq
  refine ⟨hc, by rw [hobj]; rfl, hu, ?_⟩
  rw [hxp]
  decide

/-! ### C6: fireball blast -/

/-- Characterization of the fireball burn loop: length preserved; each
hit object is replaced by its `take_damage` result and every other
object is unchanged; the accumulated xp is the sum of the kill rewards
of the hit actors other than the player. -/
theorem fireball_burn_spec (x y : Int) (objs : List Object) (id0 : Nat) :
    (fireball_burn x y objs id0).1.length = objs.length ∧
    (∀ (k : Nat) (o : Object), objs.get? k = some o →
      (fireball_burn x y objs id0).1.get? k =
        some (if fireball_hits x y o then (take_damage o FIREBALL_DAMAGE).1
              else o)) ∧
    (fireball_burn x y objs id0).2.1 =
      ((objs.enumFrom id0).map fun q =>
        if q.1 ≠ PLAYER ∧ fireball_hits x y q.2 = true
        then (take_damage q.2 FIREBALL_DAMAGE).2.getD 0 else 0).sum := by
  induction objs generalizing id0 with
  | nil =>
    exact ⟨rfl, fun k o hk => by simp at hk, by simp [fireball_burn]⟩
  | cons o rest ih =>
    obtain ⟨ihlen, ihpt, ihxp⟩ := ih (id0 + 1)
    have hstep : fireball_burn x y (o :: rest) id0 =
        (if fireball_hits x y o then
          ((take_damage o FIREBALL_DAMAGE).1 ::
              (fireball_burn x y rest (id0 + 1)).1,
            (fireball_burn x y rest (id0 + 1)).2.1 +
              (if (id0 != PLAYER) = true then
                (take_damage o FIREBALL_DAMAGE).2.getD 0 else 0),
            ("The " ++ o.name ++ " gets burned for " ++
              toString FIREBALL_DAMAGE ++ " hit points.") ::
              (fireball_burn x y rest (id0 + 1)).2.2)
        else
          (o :: (fireball_burn x y rest (id0 + 1)).1,
            (fireball_burn x y rest (id0 + 1)).2.1,
            (fireball_burn x y rest (id0 + 1)).2.2)) := rfl
    by_cases hb : fireball_hits x y o = true
    · rw [hstep, if_pos hb]
      refine ⟨?_, ?_, ?_⟩
      · simp [ihlen]
      · intro k o1 hk
        cases k with
        | zero =>
          simp only [List.get?_cons_zero, Option.some.injEq] at hk
          subst hk
          simp [hb]
        | succ k =>
          simp only [List.get?_cons_succ] at hk
          simpa using ihpt k o1 hk
      · simp only [List.enumFrom_cons, List.map_cons, List.sum_cons]
        rw [ihxp]
        by_cases hid : id0 = PLAYER
        · subst hid
          rw [if_neg (show ¬(PLAYER ≠ PLAYER ∧ fireball_hits x y o = true) from by
              rintro ⟨hc, -⟩; exact hc rfl),
            if_neg (show ¬((PLAYER != PLAYER) = true) from by simp)]
          omega
        · rw [if_pos (show id0 ≠ PLAYER ∧ fireball_hits x y o = true from ⟨hid, hb⟩),
            if_pos (show (id0 != PLAYER) = true from by simpa using hid)]
          omega
    · rw [hstep, if_neg hb]
      refine ⟨?_, ?_, ?_⟩
      · simp [ihlen]
      · intro k o1 hk
        cases k with
        | zero =>
          simp only [List.get?_cons_zero, Option.some.injEq] at hk
          subst hk
          simp [hb]
        | succ k =>
          simp only [List.get?_cons_succ] at hk
          simpa using ihpt k o1 hk
      · simp only [List.enumFrom_cons, List.map_cons, List.sum_cons]
        rw [ihxp, if_neg (by rintro ⟨-, hc⟩; exact absurd hc hb)]
        omega

/-- C6: with a designated target tile, `cast_fireball` applies
`FIREBALL_DAMAGE` to every Fighter-bearing actor within the blast
radius of the tile — the player included — and leaves every other
object unchanged; the xp of every non-player actor killed by the blast
is added to the player, and the xp of the player burn never is. -/
theorem cast_fireball_spec (s : GameState) (p : Object) (f : Fighter)
    (x y : Int)
    (hp : s.objects.get? PLAYER = some p) (hf : p.fighter = some f) :
    (cast_fireball s (some (x, y))).2 = .UsedUp ∧
    (∀ (k : Nat) (o : Object), k ≠ PLAYER → s.objects.get? k = some o →
      (cast_fireball s (some (x, y))).1.objects.get? k =
        some (if fireball_hits x y o then (take_damage o FIREBALL_DAMAGE).1
              else o)) ∧
    ((cast_fireball s (some (x, y))).1.player.fighter.map Fighter.hp).getD 0 =
      (if fireball_hits x y p then max 0 (f.hp - FIREBALL_DAMAGE) else f.hp) ∧
    ((cast_fireball s (some (x, y))).1.player.fighter.map Fighter.xp).getD 0 =
      f.xp + ((s.objects.enum.map fun q =>
        if q.1 ≠ PLAYER ∧ fireball_hits x y q.2 = true
        then (take_damage q.2 FIREBALL_DAMAGE).2.getD 0 else 0).sum) := by
  obtain ⟨hlen, hpt, hxp⟩ := fireball_burn_spec x y s.objects 0
  have hq0 : (fireball_burn x y s.objects 0).1.get? PLAYER =
      some (if fireball_hits x y p then (take_damage p FIREBALL_DAMAGE).1
            else p) :=
    hpt PLAYER p hp
  have hqf : (if fireball_hits x y p then (take_damage p FIREBALL_DAMAGE).1
        else p).fighter =
      some { f with hp := if fireball_hits x y p then max 0 (f.hp - FIREBALL_DAMAGE) else f.hp } := by
    by_cases hhit : fireball_hits x y p = true
    · rw [if_pos hhit, if_pos hhit]
      rw [(take_damage_spec p f FIREBALL_DAMAGE hf).1,
        if_pos (by decide : FIREBALL_DAMAGE > 0)]
    · rw [if_neg hhit, if_neg hhit, hf]
  have hscrut : (((fireball_burn x y s.objects 0).1.get? PLAYER).getD
      default).fighter =
      some { f with hp := if fireball_hits x y p then max 0 (f.hp - FIREBALL_DAMAGE) else f.hp } := by
    rw [hq0, Option.getD_some]
    exact hqf
  have hblen : PLAYER < (fireball_burn x y s.objects 0).1.length := by
    rw [hlen]
    exact (List.get?_eq_some.mp hp).1
  have hobj : (cast_fireball s (some (x, y))).1.objects =
      (fireball_burn x y s.objects 0).1.set PLAYER
        { (((fireball_burn x y s.objects 0).1.get? PLAYER).getD default) with
          fighter := some { f with hp := (if fireball_hits x y p then max 0 (f.hp - FIREBALL_DAMAGE) else f.hp), xp := f.xp + (fireball_burn x y s.objects 0).2.1 } } := by
    unfold cast_fireball GameState.player
    dsimp only
    rw [hscrut]
  have h2 : (cast_fireball s (some (x, y))).2 = UseResult.UsedUp := by
    unfold cast_fireball GameState.player
    dsimp only
    rw [hscrut]
  have hpnew : (cast_fireball s (some (x, y))).1.objects.get? PLAYER =
      some { (((fireball_burn x y s.objects 0).1.get? PLAYER).getD default) with
        fighter := some { f with hp := (if fireball_hits x y p then max 0 (f.hp - FIREBALL_DAMAGE) else f.hp), xp := f.xp + (fireball_burn x y s.objects 0).2.1 } } := by
    rw [hobj, List.get?_eq_getElem?, List.getElem?_set_self hblen]
  refine ⟨h2, ?_, ?_, ?_⟩
  · intro k o hk ho
    rw [hobj, List.get?_eq_getElem?, List.getElem?_set_ne (fun h => hk h.symm),
      ← List.get?_eq_getElem?]
    exact hpt k o ho
  · show ((((cast_fireball s (some (x, y))).1.objects.get? PLAYER).getD
      default).fighter.map Fighter.hp).getD 0 = _
    rw [hpnew, Option.getD_some]
    rfl
  · show ((((cast_fireball s (some (x, y))).1.objects.get? PLAYER).getD
      default).fighter.map Fighter.xp).getD 0 = _
    rw [hpnew, Option.getD_some]
    dsimp only
    rw [Option.map_some', Option.getD_some]
    rw [hxp]
    rfl

/-- Witness for C6, the spec scenario: fireball at the player tile,
radius 3, damage 12; two monsters at 10 and 8 hp in the radius both
die, the 30/30 player in the radius survives at 18 hp, and the player
gains exactly the monsters combined xp (35 + 100 = 135), not its own.
-/
theorem cast_fireball_spec_witness :
    (cast_fireball (mkState [mkPlayer 1 0, mkOrc 1 1 10 35, mkOrc 2 2 8 100]
      []) (some (0, 0))).2 = UseResult.UsedUp ∧
    ((cast_fireball (mkState [mkPlayer 1 0, mkOrc 1 1 10 35, mkOrc 2 2 8 100]
      []) (some (0, 0))).1.player.fighter.map Fighter.hp).getD 0 = 18 ∧
    ((cast_fireball (mkState [mkPlayer 1 0, mkOrc 1 1 10 35, mkOrc 2 2 8 100]
      []) (some (0, 0))).1.player.fighter.map Fighter.xp).getD 0 = 135 ∧
    ((cast_fireball (mkState [mkPlayer 1 0, mkOrc 1 1 10 35, mkOrc 2 2 8 100]
      []) (some (0, 0))).1.objects.get? 1).map Object.alive = some false ∧
    ((cast_fireball (mkState [mkPlayer 1 0, mkOrc 1 1 10 35, mkOrc 2 2 8 100]
      []) (some (0, 0))).1.objects.get? 2).map Object.alive = some false := by
  obtain ⟨h1, h2, h3, h4⟩ := cast_fireball_spec
    (mkState [mkPlayer 1 0, mkOrc 1 1 10 35, mkOrc 2 2 8 100] [])
    (mkPlayer 1 0) ⟨30, 30, 2, 5, 0, .Player⟩ 0 0 rfl rfl
  have hm1 := h2 1 (mkOrc 1 1 10 35) (by decide) rfl
  have hm2 := h2 2 (mkOrc 2 2 8 100) (by decide) rfl
  refine ⟨h1, ?_, ?_, ?_, ?_⟩
  · rw [h3]; decide
  · rw [h4]; decide
  · rw [hm1]; decide
  · rw [hm2]; decide

/-! ## C3: the confusion episode (src/main.rs lines 356-409) -/

/-- `possible_movements` of `GameState::ai_confused` (src/main.rs lines
386-392): the four cardinal steps plus staying put. -/
def possible_movements : List (Int × Int) :=
  [(0, 0), (1, 0), (-1, 0), (0, 1), (0, -1)]

/-- `GameState::ai_confused` (src/main.rs lines 383-409) at the level
of the acting object: the map/actor blocking test of `move_object_by`
enters as the `blocked` oracle, and the uniform RNG draw of
`rand::thread_rng().choose` as the index into `possible_movements`.
While `num_turns` is nonnegative the actor attempts the drawn step (a
no-op when the destination is blocked) and the counter drops by one;
otherwise the one-shot revert emits the message and restores the
wrapped AI. -/
def ai_confused (blocked : Int → Int → Bool) (name : String)
    (pos : Int × Int) (previous_ai : Ai) (num_turns : Int) (r : Fin 5) :
    Ai × (Int × Int) × List String :=
  if num_turns ≥ 0 then
    let d := possible_movements.get ⟨r.val, r.isLt⟩
    let pos' := if blocked (pos.1 + d.1) (pos.2 + d.2) then pos
      else (pos.1 + d.1, pos.2 + d.2)
    (Ai.Confused previous_ai (num_turns - 1), pos', [])
  else
    (previous_ai, pos, ["The " ++ name ++ " is no longer confused!"])

/-- One acting turn of the confusion episode, mirroring
`GameState::ai_take_turn` (src/main.rs lines 356-365) for the states a
Confused wrapper passes through: a Confused state steps through
`ai_confused`; `ai_basic` returns `Ai::Basic` unchanged and never emits
a confusion message, and the episode theorems stop at the revert turn,
so the Basic branch only carries the AI state. -/
def confused_step (blocked : Int → Int → Bool) (name : String)
    (st : Ai × (Int × Int)) (r : Fin 5) : Ai × (Int × Int) × List String :=
  match st.1 with
  | Ai.Confused previous_ai num_turns =>
      ai_confused blocked name st.2 previous_ai num_turns r
  | Ai.Basic => (Ai.Basic, st.2, [])

/-- n acting turns of the episode: the state after turn n together with
all confusion messages emitted so far; turn k draws `rand k`. -/
def confused_run (blocked : Int → Int → Bool) (name : String)
    (rand : Nat → Fin 5) (st : Ai × (Int × Int)) :
    Nat → (Ai × (Int × Int)) × List String
  | 0 => (st, [])
  | n + 1 =>
    let prev := confused_run blocked name rand st n
    let step := confused_step blocked name prev.1 (rand n)
    ((step.1, step.2.1), prev.2 ++ step.2.2)

/-- C3 counterexample: with turns_remaining N = 0 the actor has not
reverted after exactly N + 1 = 1 turns of acting (its AI is then
`Confused` with counter -1 and no message has been emitted); the revert
happens on the second acting turn. -/
theorem ai_confused_not_reverted_after_n_plus_one :
    (confused_run (fun _ _ => false) "orc" (fun _ => 0)
      (Ai.Confused Ai.Basic 0, (0, 0)) 1).1.1 ≠ Ai.Basic ∧
    (confused_run (fun _ _ => false) "orc" (fun _ => 0)
      (Ai.Confused Ai.Basic 0, (0, 0)) 1).2 = [] ∧
    (confused_run (fun _ _ => false) "orc" (fun _ => 0)
      (Ai.Confused Ai.Basic 0, (0, 0)) 2).1.1 = Ai.Basic := by
  refine ⟨by decide, by decide, by decide⟩

/-- Unfolding of one acting turn of `confused_run`. -/
theorem confused_run_succ (blocked : Int → Int → Bool) (name : String)
    (rand : Nat → Fin 5) (st : Ai × (Int × Int)) (n : Nat) :
    confused_run blocked name rand st (n + 1) =
      (((confused_step blocked name
          (confused_run blocked name rand st n).1 (rand n)).1,
        (confused_step blocked name
          (confused_run blocked name rand st n).1 (rand n)).2.1),
       (confused_run blocked name rand st n).2 ++
         (confused_step blocked name
           (confused_run blocked name rand st n).1 (rand n)).2.2) := rfl

/-- A turn of an actor whose AI is the Confused wrapper runs
`ai_confused`. -/
theorem confused_step_fst (blocked : Int → Int → Bool) (name : String)
    (st : Ai × (Int × Int)) (r : Fin 5) (prev : Ai) (c : Int)
    (h : st.1 = Ai.Confused prev c) :
    confused_step blocked name st r = ai_confused blocked name st.2 prev c r := by
  unfold confused_step
  rw [h]

/-- A confused turn with a nonnegative counter: attempt the drawn step
(no-op if blocked) and decrement. -/
theorem ai_confused_move (blocked : Int → Int → Bool) (name : String)
    (q : Int × Int) (prev : Ai) (c : Int) (r : Fin 5) (hc : 0 ≤ c) :
    ai_confused blocked name q prev c r =
      (Ai.Confused prev (c - 1),
        (if blocked (q.1 + (possible_movements.get ⟨r.val, r.isLt⟩).1)
            (q.2 + (possible_movements.get ⟨r.val, r.isLt⟩).2)
         then q
         else (q.1 + (possible_movements.get ⟨r.val, r.isLt⟩).1,
           q.2 + (possible_movements.get ⟨r.val, r.isLt⟩).2)), []) := by
  unfold ai_confused
  rw [if_pos (by omega : c ≥ 0)]

/-- A confused turn with a negative counter: the one-shot revert. -/
theorem ai_confused_revert (blocked : Int → Int → Bool) (name : String)
    (q : Int × Int) (prev : Ai) (c : Int) (r : Fin 5) (hc : c < 0) :
    ai_confused blocked name q prev c r =
      (prev, q, ["The " ++ name ++ " is no longer confused!"]) := by
  unfold ai_confused
  rw [if_neg (by omega : ¬ c ≥ 0)]

/-- C3 (amended): starting Confused with turns_remaining = N (N ≥ 0)
wrapping a previous AI, the actor spends the first N + 1 of its acting
turns attempting one RNG-drawn step among the four cardinal moves and
staying put (a no-op when blocked) while turns_remaining decreases by 1
each turn and no message is emitted; on the (N + 2)-th acting turn —
not after N + 1 turns — it reverts to the original AI without moving,
and exactly one "no longer confused" message is emitted over the whole
episode. -/
theorem ai_confused_episode (blocked : Int → Int → Bool) (name : String)
    (rand : Nat → Fin 5) (prev : Ai) (N : Nat) (pos : Int × Int) :
    (∀ k, k ≤ N + 1 →
      (confused_run blocked name rand (Ai.Confused prev (N : Int), pos) k).1.1 =
        Ai.Confused prev ((N : Int) - k) ∧
      (confused_run blocked name rand (Ai.Confused prev (N : Int), pos) k).2 =
        []) ∧
    (∀ k, k ≤ N →
      ∃ d ∈ possible_movements,
        (confused_run blocked name rand (Ai.Confused prev (N : Int), pos)
          (k + 1)).1.2 =
          (if blocked ((confused_run blocked name rand
              (Ai.Confused prev (N : Int), pos) k).1.2.1 + d.1)
            ((confused_run blocked name rand
              (Ai.Confused prev (N : Int), pos) k).1.2.2 + d.2)
           then (confused_run blocked name rand
             (Ai.Confused prev (N : Int), pos) k).1.2
           else ((confused_run blocked name rand
               (Ai.Confused prev (N : Int), pos) k).1.2.1 + d.1,
             (confused_run blocked name rand
               (Ai.Confused prev (N : Int), pos) k).1.2.2 + d.2))) ∧
    (confused_run blocked name rand (Ai.Confused prev (N : Int), pos)
      (N + 2)).1.1 = prev ∧
    (confused_run blocked name rand (Ai.Confused prev (N : Int), pos)
      (N + 2)).2 = ["The " ++ name ++ " is no longer confused!"] ∧
    (confused_run blocked name rand (Ai.Confused prev (N : Int), pos)
      (N + 2)).1.2 =
      (confused_run blocked name rand (Ai.Confused prev (N : Int), pos)
        (N + 1)).1.2 := by
  have phase1 : ∀ k, k ≤ N + 1 →
      (confused_run blocked name rand (Ai.Confused prev (N : Int), pos) k).1.1 =
        Ai.Confused prev ((N : Int) - k) ∧
      (confused_run blocked name rand (Ai.Confused prev (N : Int), pos) k).2 =
        [] := by
    intro k
    induction k with
    | zero =>
      intro _
      refine ⟨?_, rfl⟩
      show Ai.Confused prev (N : Int) =
        Ai.Confused prev ((N : Int) - ((0 : Nat) : Int))
      simp
    | succ k ih =>
      intro hk
      obtain ⟨hai, hmsg⟩ := ih (by omega)
      rw [confused_run_succ,
        confused_step_fst blocked name _ _ prev ((N : Int) - k) hai,
        ai_confused_move _ _ _ _ _ _ (by omega)]
      constructor
      · show Ai.Confused prev ((N : Int) - k - 1) = _
        congr 1
        push_cast
        ring
      · rw [hmsg]
        rfl
  have hrevert := phase1 (N + 1) (by omega)
  refine ⟨phase1, ?_, ?_, ?_, ?_⟩
  · intro k hk
    obtain ⟨hai, -⟩ := phase1 k (by omega)
    refine ⟨possible_movements.get ⟨(rand k).val, (rand k).isLt⟩,
      List.get_mem _ _ _, ?_⟩
    rw [confused_run_succ,
      confused_step_fst blocked name _ _ prev ((N : Int) - k) hai,
      ai_confused_move _ _ _ _ _ _ (by omega)]
  · rw [show N + 2 = (N + 1) + 1 from rfl, confused_run_succ,
      confused_step_fst blocked name _ _ prev ((N : Int) - ((N + 1 : Nat) : Int))
        hrevert.1,
      ai_confused_revert _ _ _ _ _ _ (by push_cast; omega)]
  · rw [show N + 2 = (N + 1) + 1 from rfl, confused_run_succ,
      confused_step_fst blocked name _ _ prev ((N : Int) - ((N + 1 : Nat) : Int))
        hrevert.1,
      ai_confused_revert _ _ _ _ _ _ (by push_cast; omega), hrevert.2]
    rfl
  · rw [show N + 2 = (N + 1) + 1 from rfl, confused_run_succ,
      confused_step_fst blocked name _ _ prev ((N : Int) - ((N + 1 : Nat) : Int))
        hrevert.1,
      ai_confused_revert _ _ _ _ _ _ (by push_cast; omega)]

/-- Witness for C3: with turns_remaining N = 1, after 2 acting turns
the AI is Confused with counter -1 and no message was emitted; on the
3rd acting turn it reverts to Basic with exactly one message. -/
theorem ai_confused_episode_witness :
    (confused_run (fun _ _ => false) "orc" (fun _ => 0)
      (Ai.Confused Ai.Basic (1 : Int), (5, 7)) 2).1.1 =
      Ai.Confused Ai.Basic (-1) ∧
    (confused_run (fun _ _ => false) "orc" (fun _ => 0)
      (Ai.Confused Ai.Basic (1 : Int), (5, 7)) 2).2 = [] ∧
    (confused_run (fun _ _ => false) "orc" (fun _ => 0)
      (Ai.Confused Ai.Basic (1 : Int), (5, 7)) 3).1.1 = Ai.Basic ∧
    (confused_run (fun _ _ => false) "orc" (fun _ => 0)
      (Ai.Confused Ai.Basic (1 : Int), (5, 7)) 3).2 =
      ["The orc is no longer confused!"] := by
  obtain ⟨h1, -, h3, h4, -⟩ := ai_confused_episode (fun _ _ => false) "orc"
    (fun _ => 0) Ai.Basic 1 (5, 7)
  have h2 := h1 2 (by norm_num)
  norm_num at h2 h3 h4
  refine ⟨?_, h2.2, h3, ?_⟩
  · rw [h2.1]
  · rw [h4]
    rfl
